import Mathlib

/-!
# Verification of the AmpliGraph evaluation protocol (`ampligraph/evaluation/protocol.py`)

Shallow embedding of the functions of `protocol.py` that the claims concern:

* `to_idx` / `_convert_to_idx` — conversion of raw (string) triples to ID triples,
  performed with `np.vectorize(dict.get)`.  `dict.get` returns `None` for a missing
  key; `np.vectorize` infers its output dtype from the first element of each
  column, so a miss at the head of a column makes the whole column object-typed
  (the `None`s flow through silently) while a miss after a resolving head fails
  the cast into the inferred integer dtype with a `TypeError`.
* `filter_unseen_entities` and the filtering step of `evaluate_performance`.
* `generate_corruptions_for_eval` — for a single source triple (the documented shape
  `[1, 3]`), the TensorFlow repeat/stack/transpose/reshape pipeline reduces to
  zipping replicated columns with the candidate-entity pool; the prime-product
  `out_prime` is the element-wise product of the three table lookups.
* `generate_corruptions_for_fit` — the tile/mask/replacement pipeline, with the
  random coin flips and the random replacement draws passed in as explicit streams
  (the code draws them from a seeded TensorFlow generator).
* `train_test_split_no_unseen` — the rejection-sampling loop, with the stream of
  `rnd.randint(len(X))` results passed in as an explicit list of indices.
* `gridsearch_next_hyperparam` / `yield_all_permutations` — Python generators
  embedded as functions returning the list of yielded items together with the
  exception, if any, that escapes to the caller.

Raw identifiers are `String`s, ID-space identifiers are `Nat`s.  Triples are
`(subject, relation, object)` tuples.
-/

/-- A triple in ID space: `(subject, relation, object)`. -/
abbrev Triple := Nat × Nat × Nat

/-- A raw triple of string identifiers: `(subject, relation, object)`. -/
abbrev RawTriple := String × String × String

/-- A vocabulary dictionary (`ent_to_idx` / `rel_to_idx`): association list from raw
identifier to integer ID.  `Dict.lookup` models Python's `dict.get`, which returns
`None` for a missing key instead of raising. -/
abbrev Dict := List (String × Nat)

/-- Three-way `zipWith`, the list form of `tf.stack([a, b, c], 1)` on three equal
length column tensors followed by the row-major `transpose`/`reshape (-1, 3)`. -/
def zipWith3 (f : α → β → γ → δ) : List α → List β → List γ → List δ
  | a :: as, b :: bs, c :: cs => f a b c :: zipWith3 f as bs cs
  | _, _, _ => []

/-- Row-stacking of three columns into triples. -/
def zip3 (as : List α) (bs : List β) (cs : List γ) : List (α × β × γ) :=
  zipWith3 (fun a b c => (a, b, c)) as bs cs

/-- The `TypeError` numpy raises when casting a `None` result into the integer
output dtype `np.vectorize` inferred from a column's first lookup. -/
def typeErrorMsg : String :=
  "TypeError: int() argument must be a string or a number, not NoneType"

/-- The `ValueError` numpy raises when `np.vectorize` is called on a size-0 input
without explicit otypes. -/
def valueErrorMsg : String :=
  "ValueError: cannot call vectorize on size 0 inputs unless otypes is set"

/-- `np.vectorize(d.get)` applied to one column.  `np.vectorize` infers its output
dtype from the function's value on the first element: on an empty column it raises
`ValueError` (nothing to infer from); when the first lookup misses, the inferred
dtype is `object` and the `None` of any miss is stored silently; when the first
lookup resolves, the inferred dtype is integer and casting a later miss's `None`
into it raises `TypeError`. -/
def vectorize_get (d : Dict) : List String → Except String (List (Option Nat))
  | [] => .error valueErrorMsg
  | k0 :: rest =>
    match d.lookup k0 with
    | none => .ok ((k0 :: rest).map d.lookup)
    | some _ =>
      if rest.all (fun k => (d.lookup k).isSome) then
        .ok ((k0 :: rest).map d.lookup)
      else
        .error typeErrorMsg

/-- Success condition of `np.vectorize(d.get)` on one column: the column is
nonempty, and either its first lookup already misses (object dtype inferred) or no
later lookup misses. -/
def vectorize_ok (d : Dict) : List String → Bool
  | [] => false
  | k0 :: rest => (d.lookup k0).isNone || rest.all (fun k => (d.lookup k).isSome)

/-- `_convert_to_idx(X, ent_to_idx, rel_to_idx, obj_to_idx)`: `np.vectorize(d.get)`
over each of the three columns (each with its own dtype inference and possible
`TypeError`, see `vectorize_get`), then `np.dstack(...).reshape((-1, 3))` restacks
the columns into rows. -/
def _convert_to_idx (X : List RawTriple) (ent_to_idx rel_to_idx obj_to_idx : Dict) :
    Except String (List (Option Nat × Option Nat × Option Nat)) :=
  match vectorize_get ent_to_idx (X.map (fun t => t.1)) with
  | .error e => .error e
  | .ok x_idx_s =>
    match vectorize_get rel_to_idx (X.map (fun t => t.2.1)) with
    | .error e => .error e
    | .ok x_idx_p =>
      match vectorize_get obj_to_idx (X.map (fun t => t.2.2)) with
      | .error e => .error e
      | .ok x_idx_o => .ok (zip3 x_idx_s x_idx_p x_idx_o)

/-- `to_idx(X, ent_to_idx, rel_to_idx)`: entity dictionary used for both the subject
and the object column.  (The `X.ndim == 1` promotion of a single triple to a one-row
array is a no-op in the list model, where `X` is already a list of rows.) -/
def to_idx (X : List RawTriple) (ent_to_idx rel_to_idx : Dict) :
    Except String (List (Option Nat × Option Nat × Option Nat)) :=
  _convert_to_idx X ent_to_idx rel_to_idx ent_to_idx

/-- `filter_unseen_entities(X, model, verbose, strict)`.  `ent_seen` is the list of
keys of `model.ent_to_idx`; `ent_unseen` the test entities absent from it.  In strict
mode a `RuntimeError` is raised when unseen entities exist; otherwise the rows whose
mask `np.isin(X, ent_unseen).any(axis=1)` is set (note: all three columns, the
relation column included) are dropped. -/
def filter_unseen_entities (X : List RawTriple) (ent_to_idx : Dict) (strict : Bool) :
    Except String (List RawTriple) :=
  let ent_seen := (ent_to_idx.map Prod.fst).dedup
  let ent_test := (X.map (fun t => t.1) ++ X.map (fun t => t.2.2)).dedup
  let ent_unseen := ent_test.filter (fun e => !ent_seen.contains e)
  if ent_unseen.isEmpty then
    .ok X
  else if strict then
    .error "Unseen entities found in test set, please remove or run evaluate_performance() with strict=False."
  else
    .ok (X.filter (fun t =>
      !(ent_unseen.contains t.1 || ent_unseen.contains t.2.1 || ent_unseen.contains t.2.2)))

/-- The head of `evaluate_performance(X, model, ...)`: the unseen-entity filtering
step followed by ID conversion and the per-triple ranking loop (the model's
`predict` is an external collaborator, abstracted as a function on ID rows).
The source calls `filter_unseen_entities(X, model, verbose=verbose, strict=True)`
with the literal `True` (protocol.py line 443), not with the caller's `strict`
argument, which is embedded as such here. -/
def evaluate_performance (X : List RawTriple) (ent_to_idx rel_to_idx : Dict)
    (predict : Option Nat × Option Nat × Option Nat → Nat) (strict : Bool) :
    Except String (List Nat) :=
  match filter_unseen_entities X ent_to_idx true with
  | .error e => .error e
  | .ok X_test =>
    match to_idx X_test ent_to_idx rel_to_idx with
    | .error e => .error e
    | .ok X_idx => .ok (X_idx.map predict)

/-- `generate_corruptions_for_eval(X, entities_for_corruption, corrupt_side)` for a
single source triple `x` (the documented input shape is `[1, 3]`).  The
`repeat`/`squeeze` calls replicate the kept columns across the candidate pool and
`stack`/`transpose`/`reshape` interleave them back into rows; for `'s+o'` the
`tf.concat(..., 0)` puts the object-side block before the subject-side block.
An invalid `corrupt_side` raises `ValueError`, embedded as `none`. -/
def generate_corruptions_for_eval (x : Triple) (entities_for_corruption : List Nat)
    (corrupt_side : String) : Option (List Triple) :=
  if corrupt_side = "s+o" ∨ corrupt_side = "s" ∨ corrupt_side = "o" then
    let M := entities_for_corruption.length
    let repeated_subjs := List.replicate M x.1
    let repeated_relns := List.replicate M x.2.1
    let repeated_objs := List.replicate M x.2.2
    let rep_ent := entities_for_corruption
    some (if corrupt_side = "s+o" then
        zip3 repeated_subjs repeated_relns rep_ent ++ zip3 rep_ent repeated_relns repeated_objs
      else if corrupt_side = "o" then
        zip3 repeated_subjs repeated_relns rep_ent
      else
        zip3 rep_ent repeated_relns repeated_objs)
  else
    none

/-- The prime-product signature of one triple as computed for `out_prime`
(protocol.py lines 242-262): the product of the subject's left-table prime, the
relation's prime and the object's right-table prime. -/
def primeSig (lookupLeft lookupRel lookupRight : Nat → Nat) (t : Triple) : Nat :=
  lookupLeft t.1 * lookupRel t.2.1 * lookupRight t.2.2

/-- The `out_prime` tensor of `generate_corruptions_for_eval` for a single source
triple: element-wise products of the replicated-column lookups, with the
object-side block first for `'s+o'` (mirroring the `tf.concat` order). -/
def generate_out_prime (x : Triple) (entities_for_corruption : List Nat)
    (corrupt_side : String) (lookupLeft lookupRel lookupRight : Nat → Nat) :
    Option (List Nat) :=
  if corrupt_side = "s+o" ∨ corrupt_side = "s" ∨ corrupt_side = "o" then
    let M := entities_for_corruption.length
    let prime_subj := (List.replicate M x.1).map lookupLeft
    let prime_reln := (List.replicate M x.2.1).map lookupRel
    let prime_obj := (List.replicate M x.2.2).map lookupRight
    let prime_ent_right := entities_for_corruption.map lookupRight
    let prime_ent_left := entities_for_corruption.map lookupLeft
    some (if corrupt_side = "s+o" then
        zipWith3 (fun a b c => a * b * c) prime_subj prime_reln prime_ent_right ++
          zipWith3 (fun a b c => a * b * c) prime_ent_left prime_reln prime_obj
      else if corrupt_side = "o" then
        zipWith3 (fun a b c => a * b * c) prime_subj prime_reln prime_ent_right
      else
        zipWith3 (fun a b c => a * b * c) prime_ent_left prime_reln prime_obj)
  else
    none

/-- `generate_corruptions_for_fit(X, all_entities, eta, corrupt_side, rnd)`.
`dataset = tf.reshape(tf.tile(...), [n*eta, 3])` tiles the source triples `eta`
times, so `dataset[i + j*n] = X[i]`.  For `'s+o'` the per-source-triple coin flips
(`tf.random_uniform([n], 0, 2)` cast to bool) are tiled the same way; they are
passed in here as the stream `coins` of length `n`.  `replacements` is the stream
of `n*eta` random draws from `[0, all_entities.length)`.  The subject / object
columns are the mask-arithmetic blend `keep_subj*orig + keep_obj*replacement`
(masks are the 0/1 casts of complementary booleans).  An invalid `corrupt_side`
raises `ValueError`, embedded as `none`. -/
def generate_corruptions_for_fit (X : List Triple) (all_entities : List Nat) (eta : Nat)
    (corrupt_side : String) (coins : List Bool) (replacements : List Nat) :
    Option (List Triple) :=
  if corrupt_side = "s+o" ∨ corrupt_side = "s" ∨ corrupt_side = "o" then
    let n := X.length
    let dataset := (List.replicate eta X).flatten
    let keep_subj_mask : List Bool :=
      if corrupt_side = "s+o" then (List.replicate eta coins).flatten
      else if corrupt_side = "s" then List.replicate (n * eta) false
      else List.replicate (n * eta) true
    let subjects := zipWith3
      (fun k t r => k.toNat * t.1 + (!k).toNat * r) keep_subj_mask dataset replacements
    let relationships := dataset.map (fun t => t.2.1)
    let objects := zipWith3
      (fun k t r => (!k).toNat * t.2.2 + k.toNat * r) keep_subj_mask dataset replacements
    some (zip3 subjects relationships objects)
  else
    none

/-- The rejection-sampling loop of `train_test_split_no_unseen`.  `draws` is the
stream of successive `rnd.randint(len(X))` results; `dict_subs` / `dict_objs` /
`dict_rels` are the remaining per-value occurrence counts; `idx_test` is the list
of accepted indices (appended in draw order, as the Python list is).  The Python
loop runs until `len(idx_test) == test_size`; exhausting the finite stream first is
returned as `none` (the source would keep drawing — the loop has no iteration cap). -/
def pickLoop (X : List Triple) (test_size : Nat) :
    List Nat → (Nat → Nat) → (Nat → Nat) → (Nat → Nat) → List Nat → Option (List Nat)
  | draws, dict_subs, dict_objs, dict_rels, idx_test =>
    if test_size ≤ idx_test.length then some idx_test
    else
      match draws with
      | [] => none
      | i :: rest =>
        match X[i]? with
        | none => none
        | some t =>
          if 1 < dict_subs t.1 ∧ 1 < dict_objs t.2.2 ∧ 1 < dict_rels t.2.1 then
            pickLoop X test_size rest
              (Function.update dict_subs t.1 (dict_subs t.1 - 1))
              (Function.update dict_objs t.2.2 (dict_objs t.2.2 - 1))
              (Function.update dict_rels t.2.1 (dict_rels t.2.1 - 1))
              (idx_test ++ [i])
          else
            pickLoop X test_size rest dict_subs dict_objs dict_rels idx_test

/-- `train_test_split_no_unseen(X, test_size, seed)` with the seeded random stream
made explicit as `draws` (the successive `rnd.randint(len(X))` results).  The
occurrence dictionaries come from `np.unique(..., return_counts=True)` on each
column; `np.setdiff1d(np.arange(len(X)), idx_test)` is the sorted index range with
the test indices removed; `X[idx, :]` is row selection (which keeps duplicates of a
repeated index).  Identifiers are modelled as numerals — the splitter treats them
as opaque values. -/
def train_test_split_no_unseen (X : List Triple) (test_size : Nat) (draws : List Nat) :
    Option (List Triple × List Triple) :=
  let dict_subs := fun v => (X.map (fun t => t.1)).count v
  let dict_objs := fun v => (X.map (fun t => t.2.2)).count v
  let dict_rels := fun v => (X.map (fun t => t.2.1)).count v
  match pickLoop X test_size draws dict_subs dict_objs dict_rels [] with
  | none => none
  | some idx_test =>
    let idx_train := (List.range X.length).filter (fun i => decide (i ∉ idx_test))
    some (idx_train.filterMap (fun i => X[i]?), idx_test.filterMap (fun i => X[i]?))

/-- Modelled from the spec: the seeded random generator (`np.random.RandomState(seed)`,
an external library, not part of this repository) is modelled as a deterministic
pseudorandom stream derived from the seed — here a linear congruential generator.
What matters for the reproducibility claims is that the stream is a pure function
of the seed, which holds of `RandomState`. -/
def rndNext (state : Nat) : Nat := (state * 1103515245 + 12345) % 4294967296

/-- Modelled from the spec: the first `fuel` draws of `rnd.randint(bound)` from the
seeded stream (each draw reduced into `[0, bound)`; for `bound = 0` no valid index
exists and the draw is left as the raw state, matching no row). -/
def rndDraws (seed : Nat) (bound : Nat) : Nat → List Nat
  | 0 => []
  | fuel + 1 =>
    let s := rndNext seed
    (if bound = 0 then s else s % bound) :: rndDraws s bound fuel

/-- `train_test_split_no_unseen(X, test_size, seed)` proper: the draw stream is
derived from the seed alone.  `fuel` bounds the number of draws (the source loop is
uncapped; `none` stands for not terminating within `fuel` draws). -/
def train_test_split_no_unseen_seeded (X : List Triple) (test_size : Nat) (seed : Nat)
    (fuel : Nat) : Option (List Triple × List Triple) :=
  train_test_split_no_unseen X test_size (rndDraws seed X.length fuel)

/-! ## Grid search (`yield_all_permutations`, `gridsearch_next_hyperparam`)

Python generators are embedded as functions returning the list of yielded items
paired with `Option PyErr`: the exception, if any, that escapes while the caller
iterates the generator (after the listed items have been yielded). -/

/-- The two kinds of exception relevant to the grid-search code: `KeyError` from a
missing dictionary key, and `NameError` — what Python actually raises inside
`yield_all_permutations` when a parameter is absent from `category_type_params`,
because its handler names the undefined `KeyErrori` (protocol.py line 547). -/
inductive PyErr where
  | keyError (key : String)
  | nameError (msg : String)
deriving DecidableEq, Repr

/-- A parameter dictionary (`loss_params`, `regularizer_params`,
`embedding_model_params`): parameter name to the list of values to search. -/
abbrev ParamDict := List (String × List Nat)

/-- A registry (`LOSS_REGISTRY`, `REGULARIZER_REGISTRY`, `MODEL_REGISTRY`): category
name to the `external_params` list the registered class declares.  The registry
contents live in `ampligraph/latent_features` (external to the evaluation module). -/
abbrev Registry := List (String × List String)

/-- `itertools.product(*lists)`: all selections of one value per list. -/
def listProd : List (List Nat) → List (List Nat)
  | [] => [[]]
  | l :: ls => (l.map (fun x => (listProd ls).map (fun xs => x :: xs))).flatten

/-- `in_dict` of `gridsearch_next_hyperparam`: each key of the input dictionary is
an `Option` field (`none` = key absent).  `optimizer_params` is a nested dictionary
whose only read key is `lr`. -/
structure InDict where
  batches_count : Option (List Nat) := none
  epochs : Option (List Nat) := none
  k : Option (List Nat) := none
  eta : Option (List Nat) := none
  regularizer : Option (List String) := none
  regularizer_params : Option ParamDict := none
  optimizer : Option (List String) := none
  optimizer_params : Option (Option (List Nat)) := none
  loss : Option (List String) := none
  loss_params : Option ParamDict := none
  embedding_model_params : Option ParamDict := none
  verbose : Option Bool := none
  seed : Option Int := none

/-- One yielded hyperparameter configuration (`out_dict`).  Only the fields the
claims inspect are carried; the parameter sub-dictionaries are name/value lists. -/
structure OutDict where
  batches_count : Nat
  epochs : Nat
  k : Nat
  eta : Nat
  loss : String
  loss_params : List (String × Nat)
  embedding_model_params : List (String × Nat)
  regularizer : String
  regularizer_params : List (String × Nat)
  optimizer : String
  optimizer_lr : Nat
  verbose : Bool
  seed : Option Int
deriving DecidableEq, Repr

/-- A generator run: the items yielded so far, and the exception (if any) raised at
the `next` call that follows them. -/
abbrev GenRun (α : Type) := List α × Option PyErr

/-- Reading `in_dict[key]`: a missing key raises `KeyError`, ending the generator
run with that exception and no items. -/
def withKey (o : Option α) (key : String) (f : α → GenRun β) : GenRun β :=
  match o with
  | none => ([], PyErr.keyError key)
  | some v => f v

/-- A `for` loop over a plain list inside a generator: items accumulate in order
and the first exception from the body aborts the rest. -/
def forEach (l : List α) (f : α → GenRun β) : GenRun β :=
  match l with
  | [] => ([], none)
  | a :: as =>
    match f a with
    | (out, some e) => (out, some e)
    | (out, none) =>
      let r := forEach as f
      (out ++ r.1, r.2)

/-- A `for` loop over another generator: the body runs on each yielded item; if the
body finishes them all, the inner generator's own terminal exception (raised at the
final `next`) surfaces. -/
def forEachGen (g : GenRun α) (f : α → GenRun β) : GenRun β :=
  let r := forEach g.1 f
  (r.1, r.2.orElse (fun _ => g.2))

/-- The inner parameter-collecting loop of `yield_all_permutations`: each declared
external parameter is looked up in `category_type_params` — the code means to skip
absent ones (`logger.debug('Key not found ...')` then `pass`) but its handler reads
`except KeyErrori`, an undefined name, so the lookup's `KeyError` turns into a
`NameError` that escapes the generator. -/
def collectParams (category_type_params : ParamDict) :
    List String → Except PyErr (List String × List (List Nat))
  | [] => .ok ([], [])
  | p :: ps =>
    match category_type_params.lookup p with
    | none => .error (PyErr.nameError "name KeyErrori is not defined")
    | some vals =>
      match collectParams category_type_params ps with
      | .error e => .error e
      | .ok (ns, vs) => .ok (p :: ns, vals :: vs)

/-- `yield_all_permutations(registry, category_type, category_type_params)`.  For
each name: `registry[name]` raises `KeyError` when absent; the declared external
parameters present in `category_type_params` are collected (`collectParams`, whose
broken `except KeyErrori` handler raises `NameError` for an absent one); then one
item is yielded per element of `itertools.product` of the collected value lists. -/
def yield_all_permutations (registry : Registry) (category_type : List String)
    (category_type_params : ParamDict) : GenRun (String × List String × List Nat) :=
  forEach category_type (fun name =>
    match registry.lookup name with
    | none => ([], some (PyErr.keyError name))
    | some external_params =>
      match collectParams category_type_params external_params with
      | .error e => ([], some e)
      | .ok (present_params, present_params_vals) =>
        ((listProd present_params_vals).map (fun val => (name, present_params, val)), none))

/-- `gridsearch_next_hyperparam(model_name, in_dict)`.  `verbose` and `seed` have
individually caught defaults.  The nested loops run inside one `try`; a `KeyError`
reaching it is caught (a message is printed and the generator simply ends, keeping
the items already yielded), while any other exception — the `NameError` from the
`KeyErrori` typo included — escapes to the caller. -/
def gridsearch_next_hyperparam (model_name : String) (in_dict : InDict)
    (lossRegistry regRegistry modelRegistry : Registry) : GenRun OutDict :=
  let verbose := in_dict.verbose.getD false
  let seed := in_dict.seed.getD (-1)
  let body : GenRun OutDict :=
    withKey in_dict.batches_count "batches_count" (fun bcs =>
    forEach bcs (fun batch_count =>
    withKey in_dict.epochs "epochs" (fun eps =>
    forEach eps (fun epochs =>
    withKey in_dict.k "k" (fun ks =>
    forEach ks (fun k =>
    withKey in_dict.eta "eta" (fun etas =>
    forEach etas (fun eta =>
    withKey in_dict.regularizer "regularizer" (fun regs =>
    withKey in_dict.regularizer_params "regularizer_params" (fun reg_params_dict =>
    forEachGen (yield_all_permutations regRegistry regs reg_params_dict)
      (fun regItem =>
    withKey in_dict.optimizer "optimizer" (fun opts =>
    forEach opts (fun optimizer_type =>
    withKey in_dict.optimizer_params "optimizer_params" (fun opt_params =>
    withKey opt_params "lr" (fun lrs =>
    forEach lrs (fun optimizer_lr =>
    withKey in_dict.loss "loss" (fun losses =>
    withKey in_dict.loss_params "loss_params" (fun loss_params_dict =>
    forEachGen (yield_all_permutations lossRegistry losses loss_params_dict)
      (fun lossItem =>
    withKey in_dict.embedding_model_params "embedding_model_params"
      (fun model_params_dict =>
    forEachGen (yield_all_permutations modelRegistry [model_name] model_params_dict)
      (fun modelItem =>
      ([{ batches_count := batch_count,
          epochs := epochs,
          k := k,
          eta := eta,
          loss := lossItem.1,
          loss_params := lossItem.2.1.zip lossItem.2.2,
          embedding_model_params := modelItem.2.1.zip modelItem.2.2,
          regularizer := regItem.1,
          regularizer_params := regItem.2.1.zip regItem.2.2,
          optimizer := optimizer_type,
          optimizer_lr := optimizer_lr,
          verbose := verbose,
          seed := if 0 ≤ seed then some seed else none }], none))))))))))))))))))))))
  match body with
  | (out, some (PyErr.keyError _)) => (out, none)
  | other => other

/-! ## Splitter invariants (for claim C4)

`pi` ranges over the three column projections (subject, object, relation); the
loop keeps one occurrence dictionary per column. -/

/-- Indicator: row `i` of `X` exists and its `pi`-projection equals `v`. -/
def selP (X : List Triple) (pi : Triple → Nat) (v i : Nat) : Bool :=
  ((X[i]?).map (fun t => pi t == v)).getD false

/-- Number of rows of `X` whose `pi`-projection equals `v` (what the
`np.unique(..., return_counts=True)` dictionaries hold initially). -/
def occCount (X : List Triple) (pi : Triple → Nat) (v : Nat) : Nat :=
  X.countP (fun t => pi t == v)

/-- Invariant of the splitter's rejection-sampling loop for one projected column:
the remaining count of each value plus the number of accepted draws (with
multiplicity) carrying it equals its total occurrence count, and every accepted
draw's value has remaining count at least 1 — the content of the `> 1` guard. -/
def LoopInv (X : List Triple) (pi : Triple → Nat) (d : Nat → Nat) (acc : List Nat) : Prop :=
  (∀ v, d v + acc.countP (selP X pi v) = occCount X pi v) ∧
  (∀ i ∈ acc, ∀ t, X[i]? = some t → 1 ≤ d (pi t))

/-! ## Helper lemmas -/

theorem zip3_replicate_left (s r : Nat) :
    ∀ pool : List Nat,
      zip3 (List.replicate pool.length s) (List.replicate pool.length r) pool =
        pool.map (fun e => (s, r, e))
  | [] => rfl
  | e :: es => by
    simp only [List.length_cons, List.replicate_succ, zip3, zipWith3, List.map_cons]
    exact congrArg _ (zip3_replicate_left s r es)

theorem zip3_replicate_right (r o : Nat) :
    ∀ pool : List Nat,
      zip3 pool (List.replicate pool.length r) (List.replicate pool.length o) =
        pool.map (fun e => (e, r, o))
  | [] => rfl
  | e :: es => by
    simp only [List.length_cons, List.replicate_succ, zip3, zipWith3, List.map_cons]
    exact congrArg _ (zip3_replicate_right r o es)

theorem gen_eval_o (x : Triple) (pool : List Nat) :
    generate_corruptions_for_eval x pool "o" =
      some (zip3 (List.replicate pool.length x.1) (List.replicate pool.length x.2.1) pool) :=
  rfl

theorem gen_eval_s (x : Triple) (pool : List Nat) :
    generate_corruptions_for_eval x pool "s" =
      some (zip3 pool (List.replicate pool.length x.2.1) (List.replicate pool.length x.2.2)) :=
  rfl

theorem gen_eval_so (x : Triple) (pool : List Nat) :
    generate_corruptions_for_eval x pool "s+o" =
      some (zip3 (List.replicate pool.length x.1) (List.replicate pool.length x.2.1) pool ++
        zip3 pool (List.replicate pool.length x.2.1) (List.replicate pool.length x.2.2)) :=
  rfl

theorem zipWith3_getElem (f : α → β → γ → δ) (as : List α) :
    ∀ (bs : List β) (cs : List γ) (k : Nat) (a : α) (b : β) (c : γ),
      as[k]? = some a → bs[k]? = some b → cs[k]? = some c →
      (zipWith3 f as bs cs)[k]? = some (f a b c) := by
  induction as with
  | nil => intro bs cs k a b c ha; simp at ha
  | cons x as ih =>
    intro bs cs k a b c ha hb hc
    cases bs with
    | nil => simp at hb
    | cons y bs =>
      cases cs with
      | nil => simp at hc
      | cons z cs =>
        cases k with
        | zero =>
          simp only [List.getElem?_cons_zero, Option.some.injEq] at ha hb hc
          subst ha; subst hb; subst hc
          simp [zipWith3]
        | succ k =>
          simp only [List.getElem?_cons_succ] at ha hb hc
          simpa [zipWith3] using ih bs cs k a b c ha hb hc

theorem zipWith3_length (f : α → β → γ → δ) (as : List α) :
    ∀ (bs : List β) (cs : List γ),
      (zipWith3 f as bs cs).length = min as.length (min bs.length cs.length) := by
  induction as with
  | nil => intro bs cs; simp [zipWith3]
  | cons x as ih =>
    intro bs cs
    cases bs with
    | nil => simp [zipWith3]
    | cons y bs =>
      cases cs with
      | nil => simp [zipWith3]
      | cons z cs =>
        simp only [zipWith3, List.length_cons, ih bs cs]
        omega

/-! ## Claims C1, C2, C3 -/

theorem vectorize_get_ok_eq (d : Dict) (col : List String) (cs : List (Option Nat))
    (h : vectorize_get d col = .ok cs) : cs = col.map d.lookup := by
  cases col with
  | nil => exact Except.noConfusion h
  | cons k0 rest =>
    rw [vectorize_get] at h
    cases hk : d.lookup k0 with
    | none =>
      rw [hk] at h
      exact (Except.ok.inj h).symm
    | some v =>
      rw [hk] at h
      by_cases hall : rest.all (fun k => (d.lookup k).isSome) = true
      · rw [if_pos hall] at h
        exact (Except.ok.inj h).symm
      · rw [if_neg hall] at h
        exact Except.noConfusion h

theorem vectorize_get_error_msg (d : Dict) (col : List String) (e : String)
    (h : vectorize_get d col = .error e) : e = typeErrorMsg ∨ e = valueErrorMsg := by
  cases col with
  | nil => exact Or.inr (Except.error.inj h).symm
  | cons k0 rest =>
    rw [vectorize_get] at h
    cases hk : d.lookup k0 with
    | none =>
      rw [hk] at h
      exact Except.noConfusion h
    | some v =>
      rw [hk] at h
      by_cases hall : rest.all (fun k => (d.lookup k).isSome) = true
      · rw [if_pos hall] at h
        exact Except.noConfusion h
      · rw [if_neg hall] at h
        exact Or.inl (Except.error.inj h).symm

theorem vectorize_get_ok_iff (d : Dict) (col : List String) :
    (∃ cs, vectorize_get d col = .ok cs) ↔ vectorize_ok d col = true := by
  cases col with
  | nil => simp [vectorize_get, vectorize_ok]
  | cons k0 rest =>
    rw [vectorize_get, vectorize_ok]
    cases hk : d.lookup k0 with
    | none => simp [hk]
    | some v =>
      by_cases hall : rest.all (fun k => (d.lookup k).isSome) = true
      · simp [hk, hall]
      · simp [hk, hall]

theorem to_idx_ok_eq (X : List RawTriple) (ent_to_idx rel_to_idx : Dict)
    (rows : List (Option Nat × Option Nat × Option Nat))
    (h : to_idx X ent_to_idx rel_to_idx = .ok rows) :
    rows = zip3 ((X.map (fun t => t.1)).map ent_to_idx.lookup)
      ((X.map (fun t => t.2.1)).map rel_to_idx.lookup)
      ((X.map (fun t => t.2.2)).map ent_to_idx.lookup) := by
  unfold to_idx _convert_to_idx at h
  cases h1 : vectorize_get ent_to_idx (X.map (fun t => t.1)) with
  | error e =>
    rw [h1] at h
    exact Except.noConfusion h
  | ok cs =>
    rw [h1] at h
    cases h2 : vectorize_get rel_to_idx (X.map (fun t => t.2.1)) with
    | error e =>
      rw [h2] at h
      exact Except.noConfusion h
    | ok cp =>
      rw [h2] at h
      cases h3 : vectorize_get ent_to_idx (X.map (fun t => t.2.2)) with
      | error e =>
        rw [h3] at h
        exact Except.noConfusion h
      | ok co =>
        rw [h3] at h
        rw [(Except.ok.inj h).symm, vectorize_get_ok_eq ent_to_idx _ cs h1,
          vectorize_get_ok_eq rel_to_idx _ cp h2, vectorize_get_ok_eq ent_to_idx _ co h3]

/-- C1 counterexample: with the subject column's first (and only) identifier `"a"`
absent from the entity mapping, numpy infers object dtype for that column, so
`to_idx` does not fail: the row `(None, 0, 1)` is produced with `None` silently
substituted — no `KeyLookupError`. -/
theorem C1_counterexample_silent_none :
    to_idx [("a", "r", "b")] [("b", 1)] [("r", 0)] = .ok [(none, some 0, some 1)] := rfl

/-- C1 (amended): a missing identifier never surfaces as a lookup error
(`KeyLookupError`).  The only failures of `to_idx` are numpy's dtype-cast
`TypeError` (a column whose first identifier resolves while a later one is
missing) and the size-0 `ValueError`; whenever rows are produced, there is exactly
one output row per input row, whose components are the `dict.get` results with
`none` silently substituted for a missing identifier; and rows are produced
exactly when every column is nonempty and either starts with a missing identifier
(object dtype inferred) or has no missing identifier after its head. -/
theorem C1_missing_key_no_lookup_error (X : List RawTriple) (ent_to_idx rel_to_idx : Dict) :
    (∀ e, to_idx X ent_to_idx rel_to_idx = .error e →
      e = typeErrorMsg ∨ e = valueErrorMsg) ∧
    (∀ rows, to_idx X ent_to_idx rel_to_idx = .ok rows →
      rows.length = X.length ∧
      ∀ (i : Nat) (t : RawTriple), X[i]? = some t →
        rows[i]? = some (ent_to_idx.lookup t.1, rel_to_idx.lookup t.2.1,
          ent_to_idx.lookup t.2.2)) ∧
    ((∃ rows, to_idx X ent_to_idx rel_to_idx = .ok rows) ↔
      (vectorize_ok ent_to_idx (X.map (fun t => t.1)) = true ∧
        vectorize_ok rel_to_idx (X.map (fun t => t.2.1)) = true ∧
        vectorize_ok ent_to_idx (X.map (fun t => t.2.2)) = true)) := by
  refine ⟨?_, ?_, ?_, ?_⟩
  · intro e h
    unfold to_idx _convert_to_idx at h
    cases h1 : vectorize_get ent_to_idx (X.map (fun t => t.1)) with
    | error e1 =>
      rw [h1] at h
      exact (Except.error.inj h) ▸ vectorize_get_error_msg ent_to_idx _ e1 h1
    | ok cs =>
      rw [h1] at h
      cases h2 : vectorize_get rel_to_idx (X.map (fun t => t.2.1)) with
      | error e2 =>
        rw [h2] at h
        exact (Except.error.inj h) ▸ vectorize_get_error_msg rel_to_idx _ e2 h2
      | ok cp =>
        rw [h2] at h
        cases h3 : vectorize_get ent_to_idx (X.map (fun t => t.2.2)) with
        | error e3 =>
          rw [h3] at h
          exact (Except.error.inj h) ▸ vectorize_get_error_msg ent_to_idx _ e3 h3
        | ok co =>
          rw [h3] at h
          exact Except.noConfusion h
  · intro rows h
    rw [to_idx_ok_eq X ent_to_idx rel_to_idx rows h]
    constructor
    · rw [zip3, zipWith3_length]
      simp
    · intro i t ht
      have hs : ((X.map (fun t => t.1)).map ent_to_idx.lookup)[i]? =
          some (ent_to_idx.lookup t.1) := by
        rw [List.getElem?_map, List.getElem?_map, ht]
        rfl
      have hp : ((X.map (fun t => t.2.1)).map rel_to_idx.lookup)[i]? =
          some (rel_to_idx.lookup t.2.1) := by
        rw [List.getElem?_map, List.getElem?_map, ht]
        rfl
      have ho : ((X.map (fun t => t.2.2)).map ent_to_idx.lookup)[i]? =
          some (ent_to_idx.lookup t.2.2) := by
        rw [List.getElem?_map, List.getElem?_map, ht]
        rfl
      exact zipWith3_getElem _ _ _ _ _ _ _ _ hs hp ho
  · rintro ⟨rows, h⟩
    unfold to_idx _convert_to_idx at h
    cases h1 : vectorize_get ent_to_idx (X.map (fun t => t.1)) with
    | error e1 =>
      rw [h1] at h
      exact Except.noConfusion h
    | ok cs =>
      rw [h1] at h
      cases h2 : vectorize_get rel_to_idx (X.map (fun t => t.2.1)) with
      | error e2 =>
        rw [h2] at h
        exact Except.noConfusion h
      | ok cp =>
        rw [h2] at h
        cases h3 : vectorize_get ent_to_idx (X.map (fun t => t.2.2)) with
        | error e3 =>
          rw [h3] at h
          exact Except.noConfusion h
        | ok co =>
          exact ⟨(vectorize_get_ok_iff _ _).mp ⟨cs, h1⟩,
            (vectorize_get_ok_iff _ _).mp ⟨cp, h2⟩,
            (vectorize_get_ok_iff _ _).mp ⟨co, h3⟩⟩
  · rintro ⟨hv1, hv2, hv3⟩
    obtain ⟨cs, h1⟩ := (vectorize_get_ok_iff _ _).mpr hv1
    obtain ⟨cp, h2⟩ := (vectorize_get_ok_iff _ _).mpr hv2
    obtain ⟨co, h3⟩ := (vectorize_get_ok_iff _ _).mpr hv3
    refine ⟨zip3 cs cp co, ?_⟩
    unfold to_idx _convert_to_idx
    rw [h1, h2, h3]

/-- Witness for `C1_missing_key_no_lookup_error`: a missing identifier behind a
resolving column head raises the dtype-cast `TypeError` (never a
`KeyLookupError`), while a missing identifier at the head of its column flows
through silently as `none`. -/
theorem C1_missing_key_witness :
    to_idx [("b", "r", "b"), ("a", "r", "c")] [("b", 0), ("c", 1)] [("r", 0)] =
      .error typeErrorMsg ∧
    (typeErrorMsg = typeErrorMsg ∨ typeErrorMsg = valueErrorMsg) ∧
    ([((none : Option Nat), (some 0 : Option Nat), (some 1 : Option Nat))].length = 1 ∧
      ∀ (i : Nat) (t : RawTriple), ([("a", "r", "b")] : List RawTriple)[i]? = some t →
        [((none : Option Nat), (some 0 : Option Nat), (some 1 : Option Nat))][i]? =
          some (([("b", 1)] : Dict).lookup t.1, ([("r", 0)] : Dict).lookup t.2.1,
            ([("b", 1)] : Dict).lookup t.2.2)) := by
  refine ⟨rfl, ?_, ?_⟩
  · exact (C1_missing_key_no_lookup_error [("b", "r", "b"), ("a", "r", "c")]
      [("b", 0), ("c", 1)] [("r", 0)]).1 typeErrorMsg rfl
  · exact (C1_missing_key_no_lookup_error [("a", "r", "b")] [("b", 1)] [("r", 0)]).2.1
      [(none, some 0, some 1)] rfl

/-- C2: `evaluate_performance` hardcodes `strict=True` in its call to
`filter_unseen_entities` (protocol.py line 443), so even with `strict=False` a test
set containing the unseen entity `"a"` makes it raise instead of dropping the row. -/
theorem C2_strict_false_still_raises :
    evaluate_performance [("a", "r", "b")] [("b", 0)] [("r", 0)] (fun _ => 1) false =
      .error "Unseen entities found in test set, please remove or run evaluate_performance() with strict=False." :=
  rfl

/-- C3: drawing the same index twice is accepted twice by the splitter's loop (the
occurrence counts stay above 1), so the test indices are `[0, 0]` — not distinct —
and the returned partitions have `2 + 2 = 4` rows for a 3-row input. -/
theorem C3_duplicate_test_index :
    ∃ train test,
      train_test_split_no_unseen [(0, 5, 1), (0, 5, 1), (0, 5, 1)] 2 [0, 0] =
        some (train, test) ∧
      train.length + test.length ≠ ([(0, 5, 1), (0, 5, 1), (0, 5, 1)] : List Triple).length :=
  ⟨[(0, 5, 1), (0, 5, 1)], [(0, 5, 1), (0, 5, 1)], rfl, by decide⟩

/-! ## Claims C5, C10 -/

/-- C5: from one source triple and a candidate pool of size `M`,
`generate_corruptions_for_eval` yields exactly `M` rows for `corrupt_side='o'`
(subject and relation fixed, object a pool candidate), exactly `M` rows for `'s'`
(relation and object fixed), and exactly `2M` rows for `'s+o'` (each row of one of
the two forms). -/
theorem C5_eval_corruption_counts (x : Triple) (pool : List Nat) :
    (∃ out, generate_corruptions_for_eval x pool "o" = some out ∧
      out.length = pool.length ∧
      ∀ t ∈ out, t.1 = x.1 ∧ t.2.1 = x.2.1 ∧ t.2.2 ∈ pool) ∧
    (∃ out, generate_corruptions_for_eval x pool "s" = some out ∧
      out.length = pool.length ∧
      ∀ t ∈ out, t.1 ∈ pool ∧ t.2.1 = x.2.1 ∧ t.2.2 = x.2.2) ∧
    (∃ out, generate_corruptions_for_eval x pool "s+o" = some out ∧
      out.length = 2 * pool.length ∧
      ∀ t ∈ out, (t.1 = x.1 ∧ t.2.1 = x.2.1 ∧ t.2.2 ∈ pool) ∨
        (t.1 ∈ pool ∧ t.2.1 = x.2.1 ∧ t.2.2 = x.2.2)) := by
  refine ⟨⟨_, gen_eval_o x pool, ?_, ?_⟩, ⟨_, gen_eval_s x pool, ?_, ?_⟩,
    ⟨_, gen_eval_so x pool, ?_, ?_⟩⟩
  · rw [zip3_replicate_left]; simp
  · rw [zip3_replicate_left]
    intro t ht
    obtain ⟨e, he, rfl⟩ := List.mem_map.mp ht
    exact ⟨rfl, rfl, he⟩
  · rw [zip3_replicate_right]; simp
  · rw [zip3_replicate_right]
    intro t ht
    obtain ⟨e, he, rfl⟩ := List.mem_map.mp ht
    exact ⟨he, rfl, rfl⟩
  · rw [zip3_replicate_left, zip3_replicate_right]
    simp [two_mul]
  · rw [zip3_replicate_left, zip3_replicate_right]
    intro t ht
    rcases List.mem_append.mp ht with h | h
    · obtain ⟨e, he, rfl⟩ := List.mem_map.mp h
      exact Or.inl ⟨rfl, rfl, he⟩
    · obtain ⟨e, he, rfl⟩ := List.mem_map.mp h
      exact Or.inr ⟨he, rfl, rfl⟩

/-- C10: for `corrupt_side='s+o'` the output is the `M` object-side corruptions
`(s, r, e)` followed by the `M` subject-side corruptions `(e, r, o)` — the
object-corruption block comes first, mirroring the `tf.concat` order. -/
theorem C10_object_block_first (x : Triple) (pool : List Nat) :
    generate_corruptions_for_eval x pool "s+o" =
      some (pool.map (fun e => (x.1, x.2.1, e)) ++ pool.map (fun e => (e, x.2.1, x.2.2))) := by
  rw [gen_eval_so, zip3_replicate_left, zip3_replicate_right]

/-! ## Claim C9 -/

/-- C9: the splitter is deterministic in its seed — the random draws are a pure
function of the seed, so equal seeds give equal partitions. -/
theorem C9_seed_determinism (X : List Triple) (ts seed1 seed2 fuel : Nat)
    (h : seed1 = seed2) :
    train_test_split_no_unseen_seeded X ts seed1 fuel =
      train_test_split_no_unseen_seeded X ts seed2 fuel := by
  rw [h]

/-- Witness for `C9_seed_determinism` at a concrete seed and dataset. -/
theorem C9_seed_determinism_witness :
    (3 : Nat) = 3 ∧
    train_test_split_no_unseen_seeded [(0, 0, 1), (0, 0, 1)] 1 3 5 =
      train_test_split_no_unseen_seeded [(0, 0, 1), (0, 0, 1)] 1 3 5 :=
  ⟨rfl, C9_seed_determinism [(0, 0, 1), (0, 0, 1)] 1 3 3 5 rfl⟩

/-! ## Claim C7 -/

/-- Auxiliary: `out_prime` rows are exactly the `primeSig` values of the
corresponding corruption rows, tying the signature function to
`generate_corruptions_for_eval`'s outputs (here for `corrupt_side='o'`). -/
theorem out_prime_is_primeSig_of_rows (x : Triple) (pool : List Nat)
    (pL pRel pR : Nat → Nat) :
    generate_out_prime x pool "o" pL pRel pR =
      (generate_corruptions_for_eval x pool "o").map
        (fun rows => rows.map (primeSig pL pRel pR)) := by
  rw [gen_eval_o, zip3_replicate_left]
  show some _ = some _
  congr 1
  induction pool with
  | nil => rfl
  | cons e es ih =>
    simpa [zipWith3, primeSig] using ih

/-- C7 counterexample: the claim's hypotheses — injective entity-to-prime and
relation-to-prime assignments, products in range — are satisfied by assignments
landing on the primes 2, 3, 5, yet the two component-wise different triples
`(0, 0, 1)` and `(1, 0, 0)` share the signature `2 * 5 * 3 = 3 * 5 * 2 = 30`:
with the same table on the subject and the object side, swapping subject and
object never changes the product. -/
theorem C7_counterexample_swap_collision :
    Function.Injective (fun e : Nat => e + 2) ∧
    Function.Injective (fun r : Nat => r + 5) ∧
    Nat.Prime ((fun e : Nat => e + 2) 0) ∧ Nat.Prime ((fun e : Nat => e + 2) 1) ∧
    Nat.Prime ((fun r : Nat => r + 5) 0) ∧
    primeSig (fun e => e + 2) (fun r => r + 5) (fun e => e + 2) (0, 0, 1) =
      primeSig (fun e => e + 2) (fun r => r + 5) (fun e => e + 2) (1, 0, 0) ∧
    ((0, 0, 1) : Triple) ≠ (1, 0, 0) := by
  refine ⟨fun a b h => by simpa using h, fun a b h => by simpa using h,
    by norm_num, by norm_num, by norm_num, rfl, by decide⟩

/-- C7 (amended): signatures are distinctive once the three tables' values are
genuinely prime, injectively assigned, and pairwise disjoint across the
subject-side, relation and object-side tables (as the disjoint prime ranges of the
implementation provide): then two triples have the same signature iff they are
identical component-wise. -/
theorem C7_prime_signature_iff (pL pRel pR : Nat → Nat) (t u : Triple)
    (hpLt : Nat.Prime (pL t.1)) (hpLu : Nat.Prime (pL u.1))
    (hpRelt : Nat.Prime (pRel t.2.1)) (hpRelu : Nat.Prime (pRel u.2.1))
    (hpRt : Nat.Prime (pR t.2.2)) (hpRu : Nat.Prime (pR u.2.2))
    (hLRel : pL u.1 ≠ pRel t.2.1) (hLR : pL u.1 ≠ pR t.2.2)
    (hRelR : pRel u.2.1 ≠ pR t.2.2)
    (hinjL : pL t.1 = pL u.1 → t.1 = u.1)
    (hinjRel : pRel t.2.1 = pRel u.2.1 → t.2.1 = u.2.1)
    (hinjR : pR t.2.2 = pR u.2.2 → t.2.2 = u.2.2) :
    primeSig pL pRel pR t = primeSig pL pRel pR u ↔ t = u := by
  obtain ⟨t1, t2, t3⟩ := t
  obtain ⟨u1, u2, u3⟩ := u
  simp only [primeSig] at *
  constructor
  · intro h
    have hdvdLu : pL u1 ∣ pL t1 * pRel t2 * pR t3 := ⟨pRel u2 * pR u3, by rw [h]; ring⟩
    have hLeq : pL u1 = pL t1 := by
      rcases (Nat.Prime.dvd_mul hpLu).mp hdvdLu with hd | hd
      · rcases (Nat.Prime.dvd_mul hpLu).mp hd with hd2 | hd2
        · exact (Nat.prime_dvd_prime_iff_eq hpLu hpLt).mp hd2
        · exact absurd ((Nat.prime_dvd_prime_iff_eq hpLu hpRelt).mp hd2) hLRel
      · exact absurd ((Nat.prime_dvd_prime_iff_eq hpLu hpRt).mp hd) hLR
    have h1 : t1 = u1 := hinjL hLeq.symm
    have hcancel1 : pRel t2 * pR t3 = pRel u2 * pR u3 := by
      have hpos : 0 < pL t1 := hpLt.pos
      apply Nat.eq_of_mul_eq_mul_left hpos
      calc pL t1 * (pRel t2 * pR t3) = pL t1 * pRel t2 * pR t3 := by ring
        _ = pL u1 * pRel u2 * pR u3 := h
        _ = pL t1 * (pRel u2 * pR u3) := by rw [hLeq]; try ring
    have hdvdRel : pRel u2 ∣ pRel t2 * pR t3 := ⟨pR u3, by rw [hcancel1]⟩
    have hReleq : pRel u2 = pRel t2 := by
      rcases (Nat.Prime.dvd_mul hpRelu).mp hdvdRel with hd | hd
      · exact (Nat.prime_dvd_prime_iff_eq hpRelu hpRelt).mp hd
      · exact absurd ((Nat.prime_dvd_prime_iff_eq hpRelu hpRt).mp hd) hRelR
    have h2 : t2 = u2 := hinjRel hReleq.symm
    have h3 : t3 = u3 := by
      apply hinjR
      have hpos : 0 < pRel t2 := hpRelt.pos
      apply Nat.eq_of_mul_eq_mul_left hpos
      rw [hcancel1, hReleq]
    simp [h1, h2, h3]
  · intro h
    injection h with h1 h23
    injection h23 with h2 h3
    rw [h1, h2, h3]

/-- Witness for `C7_prime_signature_iff` at concrete disjoint prime assignments. -/
theorem C7_prime_signature_iff_witness :
    Nat.Prime 2 ∧ Nat.Prime 3 ∧ Nat.Prime 5 ∧ Nat.Prime 7 ∧
    (primeSig (fun e => e + 2) (fun r => r + 5) (fun o => o + 7) (0, 0, 0) =
        primeSig (fun e => e + 2) (fun r => r + 5) (fun o => o + 7) (1, 0, 0) ↔
      ((0, 0, 0) : Triple) = (1, 0, 0)) := by
  refine ⟨by norm_num, by norm_num, by norm_num, by norm_num, ?_⟩
  exact C7_prime_signature_iff (fun e => e + 2) (fun r => r + 5) (fun o => o + 7)
    (0, 0, 0) (1, 0, 0) (by norm_num) (by norm_num) (by norm_num) (by norm_num)
    (by norm_num) (by norm_num) (by norm_num) (by norm_num) (by norm_num)
    (by intro h; simpa using h) (by intro h; rfl) (by intro h; rfl)

/-! ## Claim C8 -/

/-- C8: an input dictionary missing the required key `loss` (all other required
keys present) does not degrade to an empty sequence: the broken
`except KeyErrori` handler in `yield_all_permutations` turns the regularizer
parameter lookup's `KeyError` into a `NameError`, which the generator's
`except KeyError` does not catch — the exception propagates to the caller. -/
theorem C8_missing_key_propagates_nameerror :
    gridsearch_next_hyperparam "TransE"
      { batches_count := some [1], epochs := some [1], k := some [1], eta := some [1],
        regularizer := some ["L2"], regularizer_params := some [],
        optimizer := some ["adam"], optimizer_params := some (some [1]),
        loss := none, loss_params := some [], embedding_model_params := some [] }
      [("nll", [])] [("L2", ["lambda"])] [("TransE", [])] =
      ([], some (PyErr.nameError "name KeyErrori is not defined")) := rfl

/-! ## Claim C6: helper lemmas -/

theorem exists_getElem_some (l : List α) (n : Nat) (h : n < l.length) :
    ∃ a, l[n]? = some a :=
  ⟨l.get ⟨n, h⟩, List.getElem?_eq_getElem h⟩

theorem idx_tile_lt (i j n eta : Nat) (hi : i < n) (hj : j < eta) :
    i + j * n < n * eta := by
  have h1 : i + j * n < (j + 1) * n := by
    rw [Nat.succ_mul]; omega
  have h2 : (j + 1) * n ≤ eta * n := Nat.mul_le_mul_right n hj
  rw [Nat.mul_comm n eta]
  omega

theorem length_flatten_replicate (eta : Nat) (l : List α) :
    ((List.replicate eta l).flatten).length = eta * l.length := by
  simp [List.sum_replicate, smul_eq_mul]

theorem flatten_replicate_getElem (l : List α) :
    ∀ (eta j i : Nat), i < l.length → j < eta →
      ((List.replicate eta l).flatten)[i + j * l.length]? = l[i]? := by
  intro eta
  induction eta with
  | zero => intro j i _ hj; exact absurd hj (Nat.not_lt_zero j)
  | succ eta ih =>
    intro j i hi hj
    cases j with
    | zero =>
      simp only [List.replicate_succ, List.flatten_cons, Nat.zero_mul, Nat.add_zero]
      exact List.getElem?_append_left hi
    | succ j =>
      have h1 : i + (j + 1) * l.length = l.length + (i + j * l.length) := by
        rw [Nat.succ_mul]; omega
      rw [List.replicate_succ, List.flatten_cons, h1,
        List.getElem?_append_right (Nat.le_add_right _ _), Nat.add_sub_cancel_left]
      exact ih j i hi (Nat.lt_of_succ_lt_succ hj)

/-- Core layout lemma for `generate_corruptions_for_fit`: with an arbitrary
keep-subject mask list of the right length, the row at tiled position
`i + j * n` keeps source triple `i`'s relation and is the mask-arithmetic blend
of its subject/object with the replacement draw at that position. -/
theorem fit_core (X : List Triple) (eta : Nat) (km : List Bool) (repl : List Nat)
    (hkm : km.length = X.length * eta) (hr : repl.length = X.length * eta) :
    (zip3 (zipWith3 (fun k t r => k.toNat * t.1 + (!k).toNat * r) km
        ((List.replicate eta X).flatten) repl)
      (((List.replicate eta X).flatten).map (fun t => t.2.1))
      (zipWith3 (fun k t r => (!k).toNat * t.2.2 + k.toNat * r) km
        ((List.replicate eta X).flatten) repl)).length = X.length * eta ∧
    ∀ i j, i < X.length → j < eta → ∀ t, X[i]? = some t →
      ∃ b v, km[i + j * X.length]? = some b ∧ repl[i + j * X.length]? = some v ∧
        (zip3 (zipWith3 (fun k t r => k.toNat * t.1 + (!k).toNat * r) km
            ((List.replicate eta X).flatten) repl)
          (((List.replicate eta X).flatten).map (fun t => t.2.1))
          (zipWith3 (fun k t r => (!k).toNat * t.2.2 + k.toNat * r) km
            ((List.replicate eta X).flatten) repl))[i + j * X.length]? =
          some (b.toNat * t.1 + (!b).toNat * v, t.2.1, (!b).toNat * t.2.2 + b.toNat * v) := by
  have hds : ((List.replicate eta X).flatten).length = X.length * eta := by
    rw [length_flatten_replicate, Nat.mul_comm]
  constructor
  · rw [zip3, zipWith3_length, zipWith3_length, zipWith3_length, List.length_map, hds,
      hkm, hr]
    omega
  · intro i j hi hj t ht
    have hidx : i + j * X.length < X.length * eta := idx_tile_lt i j X.length eta hi hj
    obtain ⟨b, hb⟩ := exists_getElem_some km (i + j * X.length) (by omega)
    obtain ⟨v, hv⟩ := exists_getElem_some repl (i + j * X.length) (by omega)
    refine ⟨b, v, hb, hv, ?_⟩
    have hdata : ((List.replicate eta X).flatten)[i + j * X.length]? = some t := by
      rw [flatten_replicate_getElem X eta j i hi hj]; exact ht
    have hsub : (zipWith3 (fun k t r => k.toNat * t.1 + (!k).toNat * r) km
        ((List.replicate eta X).flatten) repl)[i + j * X.length]? =
        some (b.toNat * t.1 + (!b).toNat * v) :=
      zipWith3_getElem _ km _ repl _ b t v hb hdata hv
    have hrel : (((List.replicate eta X).flatten).map
        (fun t => t.2.1))[i + j * X.length]? = some t.2.1 := by
      rw [List.getElem?_map, hdata]; rfl
    have hobj : (zipWith3 (fun k t r => (!k).toNat * t.2.2 + k.toNat * r) km
        ((List.replicate eta X).flatten) repl)[i + j * X.length]? =
        some ((!b).toNat * t.2.2 + b.toNat * v) :=
      zipWith3_getElem _ km _ repl _ b t v hb hdata hv
    exact zipWith3_getElem _ _ _ _ _ _ _ _ hsub hrel hobj

theorem gen_fit_so (X : List Triple) (ae : List Nat) (eta : Nat) (coins : List Bool)
    (repl : List Nat) :
    generate_corruptions_for_fit X ae eta "s+o" coins repl =
      some (zip3
        (zipWith3 (fun k t r => k.toNat * t.1 + (!k).toNat * r)
          ((List.replicate eta coins).flatten) ((List.replicate eta X).flatten) repl)
        (((List.replicate eta X).flatten).map (fun t => t.2.1))
        (zipWith3 (fun k t r => (!k).toNat * t.2.2 + k.toNat * r)
          ((List.replicate eta coins).flatten) ((List.replicate eta X).flatten) repl)) :=
  rfl

theorem gen_fit_s (X : List Triple) (ae : List Nat) (eta : Nat) (coins : List Bool)
    (repl : List Nat) :
    generate_corruptions_for_fit X ae eta "s" coins repl =
      some (zip3
        (zipWith3 (fun k t r => k.toNat * t.1 + (!k).toNat * r)
          (List.replicate (X.length * eta) false) ((List.replicate eta X).flatten) repl)
        (((List.replicate eta X).flatten).map (fun t => t.2.1))
        (zipWith3 (fun k t r => (!k).toNat * t.2.2 + k.toNat * r)
          (List.replicate (X.length * eta) false) ((List.replicate eta X).flatten) repl)) :=
  rfl

theorem gen_fit_o (X : List Triple) (ae : List Nat) (eta : Nat) (coins : List Bool)
    (repl : List Nat) :
    generate_corruptions_for_fit X ae eta "o" coins repl =
      some (zip3
        (zipWith3 (fun k t r => k.toNat * t.1 + (!k).toNat * r)
          (List.replicate (X.length * eta) true) ((List.replicate eta X).flatten) repl)
        (((List.replicate eta X).flatten).map (fun t => t.2.1))
        (zipWith3 (fun k t r => (!k).toNat * t.2.2 + k.toNat * r)
          (List.replicate (X.length * eta) true) ((List.replicate eta X).flatten) repl)) :=
  rfl

/-- C6: `generate_corruptions_for_fit` returns `n * eta` rows; the row at tiled
position `i + j * n` is a corruption of source triple `i`: its relation equals the
source relation and exactly one of subject/object is the replacement draw (a valid
entity index, i.e. drawn from `[0, len(all_entities))`) while the other column
keeps the source value. -/
theorem C6_fit_corruption_layout (X : List Triple) (all_entities : List Nat) (eta : Nat)
    (side : String) (coins : List Bool) (repl : List Nat)
    (hside : side = "s+o" ∨ side = "s" ∨ side = "o")
    (hc : coins.length = X.length)
    (hr : repl.length = X.length * eta)
    (hrange : ∀ v ∈ repl, v < all_entities.length) :
    ∃ out, generate_corruptions_for_fit X all_entities eta side coins repl = some out ∧
      out.length = X.length * eta ∧
      ∀ i j, i < X.length → j < eta → ∀ t, X[i]? = some t →
        ∃ row v, out[i + j * X.length]? = some row ∧
          repl[i + j * X.length]? = some v ∧ v < all_entities.length ∧
          row.2.1 = t.2.1 ∧
          ((row.1 = t.1 ∧ row.2.2 = v) ∨ (row.1 = v ∧ row.2.2 = t.2.2)) := by
  rcases hside with h | h | h <;> subst h
  · have hkm : ((List.replicate eta coins).flatten).length = X.length * eta := by
      rw [length_flatten_replicate, hc, Nat.mul_comm]
    obtain ⟨hlen, hrows⟩ := fit_core X eta ((List.replicate eta coins).flatten) repl hkm hr
    refine ⟨_, gen_fit_so X all_entities eta coins repl, hlen, ?_⟩
    intro i j hi hj t ht
    obtain ⟨b, v, _, hv, hrow⟩ := hrows i j hi hj t ht
    refine ⟨_, v, hrow, hv, hrange v (List.getElem?_mem hv), rfl, ?_⟩
    cases b <;> simp
  · have hkm : (List.replicate (X.length * eta) (false : Bool)).length = X.length * eta := by
      simp
    obtain ⟨hlen, hrows⟩ := fit_core X eta (List.replicate (X.length * eta) false) repl hkm hr
    refine ⟨_, gen_fit_s X all_entities eta coins repl, hlen, ?_⟩
    intro i j hi hj t ht
    obtain ⟨b, v, hb, hv, hrow⟩ := hrows i j hi hj t ht
    have hbf : b = false := by
      have hlt : i + j * X.length < X.length * eta := idx_tile_lt i j X.length eta hi hj
      rw [List.getElem?_replicate_of_lt hlt] at hb
      exact (Option.some.injEq _ _ ▸ hb).symm
    subst hbf
    refine ⟨_, v, hrow, hv, hrange v (List.getElem?_mem hv), rfl, ?_⟩
    simp
  · have hkm : (List.replicate (X.length * eta) (true : Bool)).length = X.length * eta := by
      simp
    obtain ⟨hlen, hrows⟩ := fit_core X eta (List.replicate (X.length * eta) true) repl hkm hr
    refine ⟨_, gen_fit_o X all_entities eta coins repl, hlen, ?_⟩
    intro i j hi hj t ht
    obtain ⟨b, v, hb, hv, hrow⟩ := hrows i j hi hj t ht
    have hbt : b = true := by
      have hlt : i + j * X.length < X.length * eta := idx_tile_lt i j X.length eta hi hj
      rw [List.getElem?_replicate_of_lt hlt] at hb
      exact (Option.some.injEq _ _ ▸ hb).symm
    subst hbt
    refine ⟨_, v, hrow, hv, hrange v (List.getElem?_mem hv), rfl, ?_⟩
    simp

/-- Witness for `C6_fit_corruption_layout` at a concrete one-triple input. -/
theorem C6_fit_layout_witness :
    (("o" : String) = "s+o" ∨ ("o" : String) = "s" ∨ ("o" : String) = "o") ∧
    (∃ out, generate_corruptions_for_fit [(1, 2, 3)] [0, 1] 1 "o" [true] [1] = some out ∧
      out.length = 1 ∧
      ∀ i j, i < 1 → j < 1 → ∀ t, ([(1, 2, 3)] : List Triple)[i]? = some t →
        ∃ row v, out[i + j * 1]? = some row ∧
          ([1] : List Nat)[i + j * 1]? = some v ∧ v < 2 ∧
          row.2.1 = t.2.1 ∧
          ((row.1 = t.1 ∧ row.2.2 = v) ∨ (row.1 = v ∧ row.2.2 = t.2.2))) := by
  refine ⟨Or.inr (Or.inr rfl), ?_⟩
  exact C6_fit_corruption_layout [(1, 2, 3)] [0, 1] 1 "o" [true] [1]
    (Or.inr (Or.inr rfl)) rfl rfl (by decide)

/-! ## Claim C4: splitter loop invariants -/

theorem inv_init (X : List Triple) (pi : Triple → Nat) :
    LoopInv X pi (fun v => (X.map pi).count v) [] := by
  constructor
  · intro v
    simp only [List.countP_nil, Nat.add_zero]
    rw [List.count, List.countP_map]
    rfl
  · intro i hi
    exact absurd hi (List.not_mem_nil i)

theorem inv_step_accept (X : List Triple) (pi : Triple → Nat) (d : Nat → Nat)
    (acc : List Nat) (i : Nat) (t : Triple)
    (hInv : LoopInv X pi d acc) (ht : X[i]? = some t) (hg : 1 < d (pi t)) :
    LoopInv X pi (Function.update d (pi t) (d (pi t) - 1)) (acc ++ [i]) := by
  obtain ⟨h1, h2⟩ := hInv
  constructor
  · intro v
    rw [List.countP_append]
    by_cases hv : pi t = v
    · subst hv
      have hq : selP X pi (pi t) i = true := by simp [selP, ht]
      have hcnt : List.countP (selP X pi (pi t)) [i] = 1 := by simp [hq]
      rw [Function.update_same, hcnt]
      have := h1 (pi t)
      omega
    · have hne : v ≠ pi t := fun hh => hv hh.symm
      have hq : selP X pi v i = false := by
        simp only [selP, ht, Option.map_some', Option.getD_some]
        exact beq_eq_false_iff_ne.mpr hv
      have hcnt : List.countP (selP X pi v) [i] = 0 := by simp [hq]
      rw [Function.update_noteq hne, hcnt]
      have := h1 v
      omega
  · intro j hj u hu
    rcases List.mem_append.mp hj with hja | hji
    · have hle := h2 j hja u hu
      by_cases he : pi u = pi t
      · rw [he, Function.update_same]
        omega
      · rw [Function.update_noteq he]
        exact hle
    · have hji' : j = i := by simpa using hji
      subst hji'
      have htu : u = t := by
        rw [hu] at ht
        exact Option.some.inj ht
      subst htu
      rw [Function.update_same]
      omega

theorem pickLoop_inv (X : List Triple) (ts : Nat) :
    ∀ (draws : List Nat) (d1 d2 d3 : Nat → Nat) (acc out : List Nat),
      pickLoop X ts draws d1 d2 d3 acc = some out →
      LoopInv X (fun t => t.1) d1 acc →
      LoopInv X (fun t => t.2.2) d2 acc →
      LoopInv X (fun t => t.2.1) d3 acc →
      ∃ e1 e2 e3, LoopInv X (fun t => t.1) e1 out ∧
        LoopInv X (fun t => t.2.2) e2 out ∧ LoopInv X (fun t => t.2.1) e3 out := by
  intro draws
  induction draws with
  | nil =>
    intro d1 d2 d3 acc out h hI1 hI2 hI3
    rw [pickLoop] at h
    split at h
    · cases h
      exact ⟨d1, d2, d3, hI1, hI2, hI3⟩
    · exact absurd h (by simp)
  | cons i rest ih =>
    intro d1 d2 d3 acc out h hI1 hI2 hI3
    rw [pickLoop] at h
    split at h
    · cases h
      exact ⟨d1, d2, d3, hI1, hI2, hI3⟩
    · cases hX : X[i]? with
      | none =>
        simp only [hX] at h
        exact Option.noConfusion h
      | some t =>
        rw [hX] at h
        dsimp only at h
        by_cases hg : 1 < d1 t.1 ∧ 1 < d2 t.2.2 ∧ 1 < d3 t.2.1
        · rw [if_pos hg] at h
          obtain ⟨hg1, hg2, hg3⟩ := hg
          exact ih _ _ _ _ _ h
            (inv_step_accept X (fun t => t.1) d1 acc i t hI1 hX hg1)
            (inv_step_accept X (fun t => t.2.2) d2 acc i t hI2 hX hg2)
            (inv_step_accept X (fun t => t.2.1) d3 acc i t hI3 hX hg3)
        · rw [if_neg hg] at h
          exact ih _ _ _ _ _ h hI1 hI2 hI3

theorem countP_range_occ (pi : Triple → Nat) (v : Nat) :
    ∀ X : List Triple, occCount X pi v = (List.range X.length).countP (selP X pi v)
  | [] => rfl
  | a :: xs => by
    have ih := countP_range_occ pi v xs
    show List.countP (fun t => pi t == v) (a :: xs) = _
    rw [List.countP_cons, List.length_cons, List.range_succ_eq_map, List.countP_cons,
      List.countP_map]
    have hsel0 : selP (a :: xs) pi v 0 = (pi a == v) := by simp [selP]
    have hsucc : (selP (a :: xs) pi v ∘ Nat.succ) = selP xs pi v := by
      funext j
      simp [selP, List.getElem?_cons_succ]
    rw [hsel0, hsucc]
    rw [occCount] at ih
    rw [ih]

theorem countP_split (l : List α) (p q : α → Bool) :
    l.countP p = (l.filter q).countP p + (l.filter (fun a => !q a)).countP p := by
  induction l with
  | nil => rfl
  | cons a as ih =>
    rw [List.countP_cons, ih, List.filter_cons, List.filter_cons]
    by_cases hq : q a <;> simp [hq, List.countP_cons] <;> omega

theorem nodup_filter_count_le (out : List Nat) (q : Nat → Bool) (n : Nat) :
    ((List.range n).filter (fun j => decide (j ∈ out) && q j)).length ≤ out.countP q := by
  rw [List.countP_eq_length_filter]
  apply List.Subperm.length_le
  apply List.subperm_of_subset
  · exact (List.nodup_range n).filter _
  · intro j hj
    rcases List.mem_filter.mp hj with ⟨_, hcond⟩
    rw [Bool.and_eq_true] at hcond
    obtain ⟨hmem, hqj⟩ := hcond
    exact List.mem_filter.mpr ⟨of_decide_eq_true hmem, hqj⟩

theorem exists_train_row (X : List Triple) (pi : Triple → Nat) (d : Nat → Nat)
    (out : List Nat) (hInv : LoopInv X pi d out) (i : Nat) (hi : i ∈ out)
    (t : Triple) (ht : X[i]? = some t) :
    ∃ j u, j < X.length ∧ j ∉ out ∧ X[j]? = some u ∧ pi u = pi t := by
  obtain ⟨h1, h2⟩ := hInv
  have hd : 1 ≤ d (pi t) := h2 i hi t ht
  have hip : out.countP (selP X pi (pi t)) + 1 ≤ occCount X pi (pi t) := by
    have := h1 (pi t)
    omega
  have hro := countP_range_occ pi (pi t) X
  have hsp := countP_split (List.range X.length) (selP X pi (pi t))
    (fun j => decide (j ∈ out))
  have hfirst : ((List.range X.length).filter (fun j => decide (j ∈ out))).countP
      (selP X pi (pi t)) ≤ out.countP (selP X pi (pi t)) := by
    rw [List.countP_filter]
    calc (List.range X.length).countP (fun j => selP X pi (pi t) j && decide (j ∈ out))
        = ((List.range X.length).filter
            (fun j => decide (j ∈ out) && selP X pi (pi t) j)).length := by
          rw [List.countP_eq_length_filter]
          congr 1
          apply List.filter_congr
          intro j _
          exact Bool.and_comm _ _
      _ ≤ out.countP (selP X pi (pi t)) :=
          nodup_filter_count_le out (selP X pi (pi t)) X.length
  have hsecond : 0 < ((List.range X.length).filter
      (fun j => !decide (j ∈ out))).countP (selP X pi (pi t)) := by omega
  obtain ⟨j, hjmem, hqj⟩ := List.countP_pos_iff.mp hsecond
  rcases List.mem_filter.mp hjmem with ⟨hjr, hjne⟩
  have hjlt : j < X.length := List.mem_range.mp hjr
  have hjnot : j ∉ out := by simpa using hjne
  cases hXj : X[j]? with
  | none =>
    rw [selP, hXj] at hqj
    exact absurd hqj (by simp)
  | some u =>
    refine ⟨j, u, hjlt, hjnot, hXj, ?_⟩
    rw [selP, hXj] at hqj
    simpa using hqj

theorem split_eq (X : List Triple) (ts : Nat) (draws : List Nat)
    (train test : List Triple)
    (h : train_test_split_no_unseen X ts draws = some (train, test)) :
    ∃ out, pickLoop X ts draws (fun v => (X.map (fun t => t.1)).count v)
        (fun v => (X.map (fun t => t.2.2)).count v)
        (fun v => (X.map (fun t => t.2.1)).count v) [] = some out ∧
      train = ((List.range X.length).filter
        (fun i => decide (i ∉ out))).filterMap (fun i => X[i]?) ∧
      test = out.filterMap (fun i => X[i]?) := by
  unfold train_test_split_no_unseen at h
  dsimp only at h
  cases hp : pickLoop X ts draws (fun v => (X.map (fun t => t.1)).count v)
      (fun v => (X.map (fun t => t.2.2)).count v)
      (fun v => (X.map (fun t => t.2.1)).count v) [] with
  | none =>
    rw [hp] at h
    exact Option.noConfusion h
  | some out =>
    rw [hp] at h
    have h2 := Option.some.inj h
    exact ⟨out, rfl, (congrArg Prod.fst h2).symm, (congrArg Prod.snd h2).symm⟩

/-- C4: on any terminating run of `train_test_split_no_unseen`, every entity
occurring (as subject or object) in the returned test partition also occurs (as
subject or object) in the returned train partition, and likewise every relation
of the test partition occurs in the train partition. -/
theorem C4_test_entities_in_train (X : List Triple) (ts : Nat) (draws : List Nat)
    (train test : List Triple)
    (h : train_test_split_no_unseen X ts draws = some (train, test)) :
    (∀ e, (∃ t ∈ test, t.1 = e ∨ t.2.2 = e) → ∃ u ∈ train, u.1 = e ∨ u.2.2 = e) ∧
    (∀ r, (∃ t ∈ test, t.2.1 = r) → ∃ u ∈ train, u.2.1 = r) := by
  obtain ⟨out, hp, htrain, htest⟩ := split_eq X ts draws train test h
  obtain ⟨e1, e2, e3, hI1, hI2, hI3⟩ := pickLoop_inv X ts draws _ _ _ [] out hp
    (inv_init X (fun t => t.1)) (inv_init X (fun t => t.2.2)) (inv_init X (fun t => t.2.1))
  subst htrain htest
  have htr : ∀ j u, j < X.length → j ∉ out → X[j]? = some u →
      u ∈ ((List.range X.length).filter
        (fun i => decide (i ∉ out))).filterMap (fun i => X[i]?) := by
    intro j u hjlt hjnot hXj
    exact List.mem_filterMap.mpr ⟨j, List.mem_filter.mpr
      ⟨List.mem_range.mpr hjlt, decide_eq_true hjnot⟩, hXj⟩
  constructor
  · rintro e ⟨t, htmem, hcase⟩
    obtain ⟨i, hiout, hXi⟩ := List.mem_filterMap.mp htmem
    rcases hcase with hcase | hcase
    · obtain ⟨j, u, hjlt, hjnot, hXj, hpi⟩ :=
        exists_train_row X (fun t => t.1) e1 out hI1 i hiout t hXi
      exact ⟨u, htr j u hjlt hjnot hXj, Or.inl (hpi.trans hcase)⟩
    · obtain ⟨j, u, hjlt, hjnot, hXj, hpi⟩ :=
        exists_train_row X (fun t => t.2.2) e2 out hI2 i hiout t hXi
      exact ⟨u, htr j u hjlt hjnot hXj, Or.inr (hpi.trans hcase)⟩
  · rintro r ⟨t, htmem, hcase⟩
    obtain ⟨i, hiout, hXi⟩ := List.mem_filterMap.mp htmem
    obtain ⟨j, u, hjlt, hjnot, hXj, hpi⟩ :=
      exists_train_row X (fun t => t.2.1) e3 out hI3 i hiout t hXi
    exact ⟨u, htr j u hjlt hjnot hXj, hpi.trans hcase⟩

/-- Witness for `C4_test_entities_in_train` at a concrete terminating run. -/
theorem C4_test_entities_witness :
    train_test_split_no_unseen [(0, 0, 1), (0, 0, 1)] 1 [0] =
      some ([(0, 0, 1)], [(0, 0, 1)]) ∧
    ((∀ e, (∃ t ∈ ([(0, 0, 1)] : List Triple), t.1 = e ∨ t.2.2 = e) →
        ∃ u ∈ ([(0, 0, 1)] : List Triple), u.1 = e ∨ u.2.2 = e) ∧
      (∀ r, (∃ t ∈ ([(0, 0, 1)] : List Triple), t.2.1 = r) →
        ∃ u ∈ ([(0, 0, 1)] : List Triple), u.2.1 = r)) := by
  constructor
  · rfl
  · exact C4_test_entities_in_train [(0, 0, 1), (0, 0, 1)] 1 [0]
      [(0, 0, 1)] [(0, 0, 1)] (by rfl)
